import Mathlib

/-!
Shallow embedding of the nada static code-quality analyzer
(github.com/chaksack/nada): the finding/metrics data model, the analyzer's
per-file processing and aggregation loop, the scoring/grading/trend
derivation, and the parts of the concrete rules (ComplexityRule,
SecurityRule) that the verified properties are about.

Go machine values are modelled as follows: counters are `Nat` (they only
ever increase from 0), `float64` quantities (scores, coverage, trend
ratios) are modelled as exact rationals `ℚ` (every arithmetic step the
source performs on them - products of small ints, a single division,
comparisons and clamping - is exact in `float64` ranges relevant here,
and the claims are about the algebraic shape, not rounding), strings are
`String`.  The Go AST is opaque to the analyzer beyond node-kind
inspection, so it is embedded as a tree of kind-tagged nodes.  External
collaborators (directory walker, file reader, Go parser, regexp engine,
clock) are inputs: a file arrives as either a read failure, a parse
failure, or parsed content plus tree; the regexp matcher is a boolean
oracle parameter; the timestamp and project-path fields of the report,
which are pass-throughs of external inputs, are omitted.
-/

namespace Nada

/-- `types.Issue` (internal/types/types.go): one finding.  The unused
pass-through fields `Category`/`Priority` are omitted; `Impact` is
flattened to its single `EffortMinutes` field. -/
structure Issue where
  type : String
  severity : String
  file : String
  line : Nat
  column : Nat
  message : String
  rule : String
  description : String
  effortMinutes : Nat
deriving DecidableEq, Repr

/-- `types.Metrics`: running totals for a project. -/
structure Metrics where
  linesOfCode : Nat
  cyclomaticComplexity : Nat
  codeDuplication : ℚ
  testCoverage : ℚ
  technicalDebt : String
  maintainability : String
  reliability : String
  security : String
deriving DecidableEq, Repr

/-- `types.QualityTrends`: derived snapshot of trend indicators. -/
structure QualityTrends where
  cyclomaticComplexityTrend : String
  issuesDensity : ℚ
  securityScore : ℚ
  maintainabilityIndex : ℚ
  technicalDebtRatio : ℚ
deriving DecidableEq, Repr

/-- The zero value of `QualityTrends` (`types.QualityTrends{}` in Go). -/
def emptyTrends : QualityTrends :=
  { cyclomaticComplexityTrend := ""
    issuesDensity := 0
    securityScore := 0
    maintainabilityIndex := 0
    technicalDebtRatio := 0 }

/-- The zero value of `types.Metrics`. -/
def emptyMetrics : Metrics :=
  { linesOfCode := 0
    cyclomaticComplexity := 0
    codeDuplication := 0
    testCoverage := 0
    technicalDebt := ""
    maintainability := ""
    reliability := ""
    security := "" }

/-- The mutable scan state of `analyzer.CodeAnalyzer` (and of the
standalone `main.CodeAnalyzer`): cumulative issues, cumulative metrics,
file counter. -/
structure AnalyzerState where
  issues : List Issue
  metrics : Metrics
  filesCount : Nat
deriving DecidableEq, Repr

/-- Fresh analyzer state as produced by `analyzer.New` /
`main.NewCodeAnalyzer`. -/
def initState : AnalyzerState :=
  { issues := [], metrics := emptyMetrics, filesCount := 0 }

/-- `types.Report` restricted to the analyzer-computed fields
(`ProjectPath` and `Timestamp` are pass-throughs of external inputs).
`IssuesSummary` is a Go map with zero-default lookup, modelled as a total
function `String → Nat`. -/
structure Report where
  grade : String
  score : ℚ
  issues : List Issue
  metrics : Metrics
  filesAnalyzed : Nat
  issuesSummary : String → Nat
  trends : QualityTrends
  recommendations : List String

/-! ### The Go AST, as the analyzer sees it

The analyzer and the ComplexityRule inspect syntax trees only through
`ast.Inspect` (pre-order traversal of every node) and node-kind switches
over `*ast.IfStmt`, `*ast.ForStmt`, `*ast.RangeStmt`, `*ast.SwitchStmt`,
`*ast.TypeSwitchStmt`, `*ast.SelectStmt`, `*ast.CaseClause`,
`*ast.FuncDecl`.  Function literals (`*ast.FuncLit`) never match any of
those cases but can contain nodes that do, so they get their own kind;
every other node kind is `other`. -/

/-- Node kinds the analyzer's type switches distinguish. -/
inductive NodeKind where
  | ifStmt
  | forStmt
  | rangeStmt
  | switchStmt
  | typeSwitchStmt
  | selectStmt
  | caseClause
  | funcDecl
  | funcLit
  | other
deriving DecidableEq, Repr

mutual
/-- A syntax-tree node: its kind and its children in traversal order. -/
inductive Node where
  | mk (kind : NodeKind) (children : NodeList)
deriving DecidableEq, Repr
/-- Children lists of syntax-tree nodes. -/
inductive NodeList where
  | nil
  | cons (head : Node) (tail : NodeList)
deriving DecidableEq, Repr
end

/-- Convenience constructor for trees from ordinary lists. -/
def nodeOf (k : NodeKind) (cs : List Node) : Node :=
  Node.mk k (cs.foldr .cons .nil)

/-- Node kinds that increment cyclomatic complexity in the source's
type switches: the six branching statement kinds plus case clauses
(both `case` arms of the Go switch increment by one). -/
def NodeKind.isBranching : NodeKind → Bool
  | .ifStmt | .forStmt | .rangeStmt | .switchStmt
  | .typeSwitchStmt | .selectStmt | .caseClause => true
  | _ => false

mutual
/-- `ast.Inspect` as a counter: number of nodes in the tree (the root
included) whose kind satisfies `p`. -/
def inspectCount (p : NodeKind → Bool) : Node → Nat
  | .mk k cs => (if p k then 1 else 0) + inspectCountList p cs
/-- `inspectCount` over a children list. -/
def inspectCountList (p : NodeKind → Bool) : NodeList → Nat
  | .nil => 0
  | .cons n ns => inspectCount p n + inspectCountList p ns
end

mutual
/-- All `funcDecl` nodes of a tree, in traversal order (the set of
`*ast.FuncDecl` nodes `ast.Inspect` visits). -/
def collectFuncDecls : Node → List Node
  | .mk k cs =>
    (if k = NodeKind.funcDecl then [Node.mk k cs] else []) ++ collectFuncDeclsList cs
/-- `collectFuncDecls` over a children list. -/
def collectFuncDeclsList : NodeList → List Node
  | .nil => []
  | .cons n ns => collectFuncDecls n ++ collectFuncDeclsList ns
end

/-- `ComplexityRule.calculateComplexity` (internal/rules/complexity.go):
cyclomatic complexity of one function declaration, `1` base plus the
count of branching nodes and case clauses `ast.Inspect` finds under it. -/
def calculateComplexity (fn : Node) : Nat :=
  1 + inspectCount NodeKind.isBranching fn

/-- `CodeAnalyzer.calculateFileComplexity` (internal/analyzer/analyzer.go):
whole-file complexity, counting every branching node or case clause
anywhere in the file plus `1` per function declaration. -/
def calculateFileComplexity (file : Node) : Nat :=
  inspectCount (fun k => k.isBranching || k = NodeKind.funcDecl) file

/-! ### String scanning helpers

Go's `strings.Contains` and `strings.Split(s, "\n")`, written out over
character lists so that they compute by kernel reduction. -/

/-- Whether `pat` occurs at the very start of `s` (both as char lists). -/
def charsStartWith : List Char → List Char → Bool
  | [], _ => true
  | _ :: _, [] => false
  | p :: ps, c :: cs => p = c && charsStartWith ps cs

/-- Whether `pat` occurs anywhere in `s` (both as char lists). -/
def charsContain : List Char → List Char → Bool
  | pat, [] => pat.isEmpty
  | pat, c :: cs => charsStartWith pat (c :: cs) || charsContain pat cs

/-- `strings.Contains(s, pat)`. -/
def strContains (s pat : String) : Bool :=
  charsContain pat.data s.data

/-- `strings.Split(s, "\n")` over a char list: the list of lines, where a
text of `n` newlines yields `n + 1` (possibly empty) lines. -/
def splitLinesChars : List Char → List (List Char)
  | [] => [[]]
  | c :: cs =>
    match splitLinesChars cs with
    | [] => [[c]]
    | l :: ls => if c = '\n' then [] :: l :: ls else (c :: l) :: ls

/-- `strings.Split(content, "\n")`. -/
def splitLines (s : String) : List String :=
  (splitLinesChars s.data).map String.mk

/-- `strings.ToLower`, character by character. -/
def toLowerStr (s : String) : String :=
  String.mk (s.data.map Char.toLower)

/-! ### Issue summary, scoring, grading, trends, recommendations -/

/-- One `summary[k]++` step on a Go map with zero-default lookup. -/
def bumpKey (m : String → Nat) (k : String) : String → Nat :=
  fun s => if s = k then m s + 1 else m s

/-- `CodeAnalyzer.getIssuesSummary` (identical in
internal/analyzer/analyzer.go and main.go): for each issue, increment the
map entry of its severity and the entry of its type. -/
def getIssuesSummary (issues : List Issue) : String → Nat :=
  issues.foldl (fun m i => bumpKey (bumpKey m i.severity) i.type) (fun _ => 0)

/-- `CodeAnalyzer.calculateScore` (internal/analyzer/analyzer.go lines
589-619; main.go lines 773-801 is the same algorithm): 0 for an empty
project, otherwise 100 minus 10/5/1 per high/medium/low summary entry,
minus `(avg − 10)·2` when the average per-file complexity exceeds 10,
clamped into `[0, 100]`. -/
def calculateScore (st : AnalyzerState) : ℚ :=
  if st.filesCount = 0 then 0
  else
    let summary := getIssuesSummary st.issues
    let score : ℚ :=
      100 - (summary "high" * 10 : ℕ) - (summary "medium" * 5 : ℕ) -
        (summary "low" * 1 : ℕ)
    let score :=
      if 0 < st.filesCount then
        let avgComplexity : ℚ :=
          (st.metrics.cyclomaticComplexity : ℚ) / (st.filesCount : ℚ)
        if 10 < avgComplexity then score - (avgComplexity - 10) * 2 else score
      else score
    let score := if score < 0 then 0 else score
    if 100 < score then 100 else score

/-- `CodeAnalyzer.calculateGrade` (identical in
internal/analyzer/analyzer.go and main.go). -/
def calculateGrade (score : ℚ) : String :=
  if 90 ≤ score then "A"
  else if 80 ≤ score then "B"
  else if 70 ≤ score then "C"
  else if 60 ≤ score then "D"
  else "F"

/-- Sum of `issue.Impact.EffortMinutes` over the issue list (the
`totalDebtMinutes` accumulation loop in `calculateQualityTrends`). -/
def totalDebtMinutes (issues : List Issue) : Nat :=
  (issues.map (·.effortMinutes)).sum

/-- `CodeAnalyzer.calculateQualityTrends` of the internal analyzer
(internal/analyzer/analyzer.go lines 638-678).  Note the maintainability
deduction reads `summary["missing_documentation"]`, a lookup in the
severity/type-keyed summary map. -/
def calculateQualityTrends (st : AnalyzerState) : QualityTrends :=
  let summary := getIssuesSummary st.issues
  if 0 < st.filesCount then
    let avgComplexity : ℚ :=
      (st.metrics.cyclomaticComplexity : ℚ) / (st.filesCount : ℚ)
    let trend :=
      if 15 < avgComplexity then "Very High - Immediate refactoring needed"
      else if 10 < avgComplexity then "High - Consider refactoring"
      else if 5 < avgComplexity then "Moderate - Monitor closely"
      else "Good - Well structured code"
    let density : ℚ :=
      if 0 < st.metrics.linesOfCode then
        (st.issues.length : ℚ) / (st.metrics.linesOfCode : ℚ) * 1000
      else 0
    let securityIssues := summary "vulnerability"
    let securityScore : ℚ := max 0 (100 - (securityIssues * 10 : ℕ))
    let maintainabilityDeductions : ℚ :=
      ((securityIssues * 5 + summary "missing_documentation" * 2 : ℕ) : ℚ)
    let maintainabilityIndex : ℚ := max 0 (100 - maintainabilityDeductions)
    let ratio : ℚ :=
      if 0 < st.metrics.linesOfCode then
        (totalDebtMinutes st.issues : ℚ) / 60 / (st.metrics.linesOfCode : ℚ) * 1000
      else 0
    { cyclomaticComplexityTrend := trend
      issuesDensity := density
      securityScore := securityScore
      maintainabilityIndex := maintainabilityIndex
      technicalDebtRatio := ratio }
  else emptyTrends

/-- `main.CodeAnalyzer.getIssueCountByType` (main.go): count of issues
with the given type. -/
def getIssueCountByType (issues : List Issue) (t : String) : Nat :=
  issues.countP (fun i => i.type == t)

/-- `main.CodeAnalyzer.getIssueCountByRule` (main.go): count of issues
with the given rule id. -/
def getIssueCountByRule (issues : List Issue) (rule : String) : Nat :=
  issues.countP (fun i => i.rule == rule)

/-- `main.CodeAnalyzer.calculateQualityTrends` (main.go lines 208-251):
same shape as the internal analyzer's version, but the documentation
deduction counts issues whose rule id is `missing_documentation`
(`getIssueCountByRule`) and the security counts use
`getIssueCountByType`. -/
def mainCalculateQualityTrends (st : AnalyzerState) : QualityTrends :=
  if 0 < st.filesCount then
    let avgComplexity : ℚ :=
      (st.metrics.cyclomaticComplexity : ℚ) / (st.filesCount : ℚ)
    let trend :=
      if 15 < avgComplexity then "Very High - Immediate refactoring needed"
      else if 10 < avgComplexity then "High - Consider refactoring"
      else if 5 < avgComplexity then "Moderate - Monitor closely"
      else "Good - Well structured code"
    let density : ℚ :=
      if 0 < st.metrics.linesOfCode then
        (st.issues.length : ℚ) / (st.metrics.linesOfCode : ℚ) * 1000
      else 0
    let securityIssues := getIssueCountByType st.issues "vulnerability"
    let securityScore : ℚ := max 0 (100 - (securityIssues * 10 : ℕ))
    let documentationIssues := getIssueCountByRule st.issues "missing_documentation"
    let maintainabilityDeductions : ℚ :=
      ((securityIssues * 5 + documentationIssues * 2 : ℕ) : ℚ)
    let maintainabilityIndex : ℚ := max 0 (100 - maintainabilityDeductions)
    let ratio : ℚ :=
      if 0 < st.metrics.linesOfCode then
        (totalDebtMinutes st.issues : ℚ) / 60 / (st.metrics.linesOfCode : ℚ) * 1000
      else 0
    { cyclomaticComplexityTrend := trend
      issuesDensity := density
      securityScore := securityScore
      maintainabilityIndex := maintainabilityIndex
      technicalDebtRatio := ratio }
  else emptyTrends

/-- `CodeAnalyzer.generateRecommendations` of the internal analyzer:
security, then bugs, then coverage; a positive fallback only when nothing
fired.  The numeric interpolations of the Go `fmt.Sprintf` calls are
rendered with `toString`. -/
def generateRecommendations (st : AnalyzerState) : List String :=
  let summary := getIssuesSummary st.issues
  let recommendations :=
    (if 0 < summary "vulnerability" then
      ["🔒 URGENT: Address " ++ toString (summary "vulnerability") ++
        " security vulnerabilities immediately"]
    else []) ++
    (if 0 < summary "bug" then
      ["🐛 HIGH: Fix " ++ toString (summary "bug") ++ " bugs to improve reliability"]
    else []) ++
    (if st.metrics.testCoverage < 70 then
      ["🧪 Increase test coverage from " ++ toString st.metrics.testCoverage ++
        "% to at least 70%"]
    else [])
  if recommendations.isEmpty then
    ["✅ Great job! Your code quality is excellent."]
  else recommendations

/-! ### Per-file processing and project aggregation -/

/-- The one `error`-kind issue synthesized when reading a file fails
(`analyzeFile`, read branch; identical in both analyzers). -/
def readErrorIssue (path msg : String) : Issue :=
  { type := "error", severity := "high", file := path, line := 1, column := 1
    rule := "read_error", message := "Cannot read file"
    description := "Error reading file: " ++ msg, effortMinutes := 1 }

/-- The one `error`-kind issue synthesized when parsing a file fails
(`analyzeFile`, parse branch; identical in both analyzers). -/
def parseErrorIssue (path msg : String) : Issue :=
  { type := "error", severity := "high", file := path, line := 1, column := 1
    rule := "parse_error", message := "Syntax error"
    description := "Parse error: " ++ msg, effortMinutes := 1 }

/-- What the external world delivers for one candidate file: the read
fails, the read succeeds but the Go parser rejects the bytes, or both
succeed yielding the raw text and its syntax tree. -/
inductive FileContent where
  | readFailure (msg : String)
  | parseFailure (content msg : String)
  | parsed (content : String) (tree : Node)

/-- One candidate file as seen by `analyzeFile`. -/
structure FileInput where
  path : String
  content : FileContent

/-- `rules.Engine.AnalyzeFile` as the analyzer consumes it: a function
from file path, syntax tree and raw text to the concatenated issues of
the registered rules.  (The engine is a plain fold over rule values; the
analyzer only ever calls this method.) -/
abbrev RuleEngine := String → Node → String → List Issue

/-- `CodeAnalyzer.updateMetrics` (internal/analyzer/analyzer.go):
lines-of-code plus line count, cyclomatic complexity plus the file
complexity, and the coverage heuristic overwrite when the text contains
`func Test`. -/
def updateMetrics (st : AnalyzerState) (content : String) (tree : Node) :
    AnalyzerState :=
  let m := st.metrics
  let m :=
    { m with
      linesOfCode := m.linesOfCode + (splitLines content).length
      cyclomaticComplexity := m.cyclomaticComplexity + calculateFileComplexity tree }
  let m :=
    if strContains content "func Test" then
      { m with testCoverage := (st.filesCount : ℚ) / ((max st.filesCount 1 : ℕ) : ℚ) * 100 }
    else m
  { st with metrics := m }

/-- `CodeAnalyzer.analyzeFile` (internal/analyzer/analyzer.go lines
487-534): count the file; on read failure record `read_error` and stop;
on parse failure record `parse_error` and stop; otherwise run the rule
engine, append its issues, and update the metrics. -/
def analyzeFile (engine : RuleEngine) (st : AnalyzerState) (f : FileInput) :
    AnalyzerState :=
  let st := { st with filesCount := st.filesCount + 1 }
  match f.content with
  | .readFailure msg => { st with issues := st.issues ++ [readErrorIssue f.path msg] }
  | .parseFailure _ msg => { st with issues := st.issues ++ [parseErrorIssue f.path msg] }
  | .parsed content tree =>
    let st := { st with issues := st.issues ++ engine f.path tree content }
    updateMetrics st content tree

/-- Report assembly of `CodeAnalyzer.AnalyzeProject`
(internal/analyzer/analyzer.go lines 421-452): final score, grade,
summary, trends and recommendations from the accumulated state. -/
def buildReport (st : AnalyzerState) : Report :=
  let score := calculateScore st
  { grade := calculateGrade score
    score := score
    issues := st.issues
    metrics := st.metrics
    filesAnalyzed := st.filesCount
    issuesSummary := getIssuesSummary st.issues
    trends := calculateQualityTrends st
    recommendations := generateRecommendations st }

/-- `CodeAnalyzer.AnalyzeProject` after directory enumeration: the
surviving candidate files are processed in walk order by `analyzeFile`
against a fresh state, then the report is assembled.  Per-file failures
are values of `FileInput`, so the analysis is total in them; only the
enumeration itself (not modelled, external) can fail the run. -/
def analyzeProjectFiles (engine : RuleEngine) (files : List FileInput) : Report :=
  buildReport (files.foldl (analyzeFile engine) initState)

/-- The `Report` shape of the standalone main.go analyzer (its `Report`
struct has no trends/recommendations fields). -/
structure MainReport where
  grade : String
  score : ℚ
  issues : List Issue
  metrics : Metrics
  filesAnalyzed : Nat
  issuesSummary : String → Nat

/-- Report assembly of `main.CodeAnalyzer.AnalyzeProject` (main.go lines
134-146): the issues, metrics and file count are copied from the state,
`IssuesSummary` is a freshly made empty map, and `Score`/`Grade` are the
hardcoded placeholders `100.0` and `"A"` (main.go lines 143-144). -/
def mainAnalyzeProjectReport (st : AnalyzerState) : MainReport :=
  { grade := "A"
    score := 100
    issues := st.issues
    metrics := st.metrics
    filesAnalyzed := st.filesCount
    issuesSummary := fun _ => 0 }

/-! ### ComplexityRule: indentation level and deep nesting -/

/-- The character loop of `ComplexityRule.calculateIndentLevel`
(internal/rules/complexity.go lines 174-189; main.go's `checkDeepNesting`
inlines the same loop): a tab increments the running level; a space
increments it and then, when the result is divisible by 4, replaces it by
its quarter; the first other character stops the scan. -/
def indentLoop : List Char → Nat → Nat
  | [], indentLevel => indentLevel
  | c :: cs, indentLevel =>
    if c = '\t' then indentLoop cs (indentLevel + 1)
    else if c = ' ' then
      let indentLevel := indentLevel + 1
      let indentLevel :=
        if indentLevel % 4 = 0 then indentLevel / 4 else indentLevel
      indentLoop cs indentLevel
    else indentLevel

/-- `ComplexityRule.calculateIndentLevel`. -/
def calculateIndentLevel (line : String) : Nat :=
  indentLoop line.data 0

/-- The `deep_nesting` issue `ComplexityRule.checkDeepNesting` emits. -/
def deepNestingIssue (file : String) (ln col lvl : Nat) : Issue :=
  { type := "code_smell", severity := "medium", file := file, line := ln
    column := col, rule := "deep_nesting", message := "Deep nesting detected"
    description := "Code is nested " ++ toString lvl ++ " levels deep (threshold: 4)"
    effortMinutes := 5 }

/-- `ComplexityRule.checkDeepNesting` (internal/rules/complexity.go lines
145-171) for one conditional statement whose resolved position is line
`stmtLine`, column `stmtCol` (1-based): look up the statement's source
line in the split file text and emit one medium `deep_nesting` issue when
its indentation level exceeds 4. -/
def checkDeepNesting (file : String) (stmtLine stmtCol : Nat) (content : String) :
    List Issue :=
  let lines := splitLines content
  if stmtLine - 1 < lines.length then
    let line := lines.getD (stmtLine - 1) ""
    let indentLevel := calculateIndentLevel line
    if 4 < indentLevel then [deepNestingIssue file stmtLine stmtCol indentLevel]
    else []
  else []

/-- The indentation depth exactly as claim C5 words it (this definition
follows the claim's text, for comparison with `calculateIndentLevel`
above, which is the source's algorithm): each leading tab counts as one
level and every 4 consecutive leading spaces count as one level.  The
accumulator is the length of the current run of consecutive spaces; a
finished run of `r` spaces contributes `r / 4` levels. -/
def claimIndentAux : List Char → Nat → Nat
  | [], run => run / 4
  | c :: cs, run =>
    if c = '\t' then run / 4 + 1 + claimIndentAux cs 0
    else if c = ' ' then claimIndentAux cs (run + 1)
    else run / 4

/-- Claim C5's indentation depth of a line. -/
def claimIndentDepth (line : String) : Nat :=
  claimIndentAux line.data 0

/-! ### SecurityRule -/

/-- One hardcoded-secret pattern row of `SecurityRule.checkHardcodedSecrets`. -/
structure SecretPattern where
  pattern : String
  description : String
  severity : String
deriving DecidableEq, Repr

/-- The six secret-pattern rows (internal/rules/security.go lines 54-65),
as the exact Go regex source strings. -/
def secretPatterns : List SecretPattern :=
  [ { pattern := "(?i)password\\s*[:=]\\s*[\"\x27][^\"\x27]\x7b3,\x7d[\"\x27]"
      description := "Hardcoded password", severity := "high" }
  , { pattern := "(?i)secret\\s*[:=]\\s*[\"\x27][^\"\x27]\x7b8,\x7d[\"\x27]"
      description := "Hardcoded secret", severity := "high" }
  , { pattern := "(?i)api[_-]?key\\s*[:=]\\s*[\"\x27][^\"\x27]\x7b8,\x7d[\"\x27]"
      description := "Hardcoded API key", severity := "high" }
  , { pattern := "(?i)token\\s*[:=]\\s*[\"\x27][^\"\x27]\x7b16,\x7d[\"\x27]"
      description := "Hardcoded token", severity := "high" }
  , { pattern := "(?i)aws[_-]?access[_-]?key\\s*[:=]\\s*[\"\x27][^\"\x27]+[\"\x27]"
      description := "AWS access key", severity := "high" }
  , { pattern := "(?i)private[_-]?key\\s*[:=]\\s*[\"\x27][^\"\x27]+[\"\x27]"
      description := "Private key", severity := "high" } ]

/-- The seven SQL-injection patterns (internal/rules/security.go lines
93-101), as the exact Go regex source strings. -/
def sqlPatterns : List String :=
  [ "(?i)query\\s*[:=]\\s*[\"\x27].*%[sv].*[\"\x27]"
  , "(?i)fmt\\.Sprintf\\s*\\(\\s*[\"\x27].*SELECT.*%[sv].*[\"\x27]"
  , "(?i)fmt\\.Sprintf\\s*\\(\\s*[\"\x27].*INSERT.*%[sv].*[\"\x27]"
  , "(?i)fmt\\.Sprintf\\s*\\(\\s*[\"\x27].*UPDATE.*%[sv].*[\"\x27]"
  , "(?i)fmt\\.Sprintf\\s*\\(\\s*[\"\x27].*DELETE.*%[sv].*[\"\x27]"
  , "(?i)[\"\x27].*SELECT.*\\+.*[\"\x27]"
  , "(?i)[\"\x27].*INSERT.*\\+.*[\"\x27]" ]

/-- The fixed placeholder/empty literal list of
`SecurityRule.isFalsePositive` (internal/rules/security.go lines 125-139). -/
def falsePositives : List String :=
  [ "password=\"\"", "password=\x27\x27", "secret=\"\"", "secret=\x27\x27"
  , "token=\"\"", "token=\x27\x27", "password=\"placeholder\""
  , "password=\"example\"", "password=\"test\"", "password=\"dummy\""
  , "secret=\"placeholder\"", "api_key=\"your_key_here\""
  , "token=\"your_token_here\"" ]

/-- `SecurityRule.isFalsePositive` (internal/rules/security.go lines
122-154): the lowercased line contains one of the placeholder literals,
or the line contains `//` or `/*` anywhere. -/
def isFalsePositive (line : String) : Bool :=
  falsePositives.any (fun fp => strContains (toLowerStr line) fp) ||
    (strContains line "//" || strContains line "/*")

/-- The `hardcoded_secret` issue emitted for a matched secret pattern. -/
def hardcodedSecretIssue (file : String) (lineNum : Nat) (sp : SecretPattern) :
    Issue :=
  { type := "vulnerability", severity := sp.severity, file := file
    line := lineNum, column := 1, rule := "hardcoded_secret"
    message := sp.description
    description := "Hardcoded secrets should be moved to environment variables or secure configuration"
    effortMinutes := 10 }

/-- The `sql_injection` issue emitted for a matched SQL pattern. -/
def sqlInjectionIssue (file : String) (lineNum : Nat) : Issue :=
  { type := "vulnerability", severity := "high", file := file
    line := lineNum, column := 1, rule := "sql_injection"
    message := "Potential SQL injection"
    description := "Use parameterized queries to prevent SQL injection attacks"
    effortMinutes := 15 }

/-- `SecurityRule.checkHardcodedSecrets` (internal/rules/security.go
lines 51-87), with Go's `regexp.MatchString` abstracted as the boolean
oracle `matchString` (the fixed patterns always compile, so the error
result of `MatchString` is always nil): for every pattern row that
matches the line, emit its issue unless the false-positive filter
suppresses the line. -/
def checkHardcodedSecrets (matchString : String → String → Bool)
    (file : String) (lineNum : Nat) (line : String) : List Issue :=
  secretPatterns.flatMap fun sp =>
    if matchString sp.pattern line && !isFalsePositive line then
      [hardcodedSecretIssue file lineNum sp]
    else []

/-- `SecurityRule.checkSQLInjection` (internal/rules/security.go lines
90-120): one issue per matching pattern, with no false-positive filter. -/
def checkSQLInjection (matchString : String → String → Bool)
    (file : String) (lineNum : Nat) (line : String) : List Issue :=
  sqlPatterns.flatMap fun pattern =>
    if matchString pattern line then [sqlInjectionIssue file lineNum] else []

/-- `SecurityRule.Check` (internal/rules/security.go lines 36-48): both
line scans over every line of the file, 1-based line numbers. -/
def securityCheck (matchString : String → String → Bool)
    (file content : String) : List Issue :=
  (splitLines content).enum.flatMap fun p =>
    checkHardcodedSecrets matchString file (p.1 + 1) p.2 ++
      checkSQLInjection matchString file (p.1 + 1) p.2

/-! ### Label sets, side conditions, and concrete test fixtures -/

/-- The three severity labels of `types` (`SeverityLow/Medium/High`). -/
def severityLabels : List String := ["low", "medium", "high"]

/-- The four issue-kind labels of `types`
(`TypeBug/Vulnerability/CodeSmell/Error`). -/
def kindLabels : List String := ["bug", "vulnerability", "code_smell", "error"]

/-- An issue carries one of the declared severity labels and one of the
declared kind labels (the §3 invariant of the data model; every issue the
source constructs uses the `types` constants). -/
def validLabels (i : Issue) : Prop :=
  i.severity ∈ severityLabels ∧ i.type ∈ kindLabels

instance (i : Issue) : Decidable (validLabels i) :=
  inferInstanceAs (Decidable (_ ∧ _))

mutual
/-- Side condition for the amended claim C6: every branching node or case
clause of the tree lies inside some function declaration, and function
declarations are not nested inside one another.  This holds for every Go
file in declaration style (branching statements only occur in function
bodies and Go forbids nested `func` declarations); it fails exactly when
a branching node hides outside every `funcDecl`, e.g. in a top-level
function-literal initializer. -/
def branchesUnderFuncDecls : Node → Bool
  | .mk k cs =>
    if k = NodeKind.funcDecl then
      inspectCountList (fun x => x = NodeKind.funcDecl) cs == 0
    else
      !k.isBranching && branchesUnderFuncDeclsList cs
/-- `branchesUnderFuncDecls` over a children list. -/
def branchesUnderFuncDeclsList : NodeList → Bool
  | .nil => true
  | .cons n ns => branchesUnderFuncDecls n && branchesUnderFuncDeclsList ns
end

/-- A rule engine that returns no issues, for concrete instantiations. -/
def nullEngine : RuleEngine := fun _ _ _ => []

/-- A project delivering a single unreadable file. -/
def oneBadFile : List FileInput :=
  [⟨"a.go", FileContent.readFailure "permission denied"⟩]

/-- Scenario C of the spec: one file, one high-severity issue, cumulative
complexity 5. -/
def stScenarioC : AnalyzerState :=
  { issues := [{ type := "vulnerability", severity := "high", file := "cfg.go"
                 line := 3, column := 1, message := "Hardcoded password"
                 rule := "hardcoded_secret"
                 description := "Hardcoded secrets should be moved to environment variables or secure configuration"
                 effortMinutes := 10 }]
    metrics := { emptyMetrics with linesOfCode := 50, cyclomaticComplexity := 5 }
    filesCount := 1 }

/-- Analyzer state with exactly one `missing_documentation` issue and no
vulnerabilities after one analyzed file. -/
def stMissingDoc : AnalyzerState :=
  { issues := [{ type := "code_smell", severity := "low", file := "handlers.go"
                 line := 10, column := 1, message := "Missing function documentation"
                 rule := "missing_documentation"
                 description := "Public functions should have documentation comments"
                 effortMinutes := 3 }]
    metrics := { emptyMetrics with linesOfCode := 100, cyclomaticComplexity := 3 }
    filesCount := 1 }

/-- Analyzer state with ten accumulated high-severity issues, for which
`calculateScore` would return 0. -/
def stManyHigh : AnalyzerState :=
  { issues := List.replicate 10
      { type := "code_smell", severity := "high", file := "big.go", line := 1
        column := 1, message := "High cyclomatic complexity", rule := "high_complexity"
        description := "", effortMinutes := 10 }
    metrics := emptyMetrics
    filesCount := 1 }

/-- A source line whose `if` sits behind 20 leading spaces: 5 indentation
levels under the claim's tab/4-space reading. -/
def deepLine : String := String.mk (List.replicate 20 ' ' ++ "if x > 0".data)

/-- The tree of a Go file whose only branching node lives in a top-level
function-literal initializer: after `package p`, a declaration
`var x = func() int ...()` whose literal body contains an `if` statement,
parsed as a `GenDecl`/`ValueSpec`/`CallExpr` chain down to a `FuncLit`
holding an `IfStmt`, with no `FuncDecl` at all. -/
def fileWithTopLevelFuncLit : Node :=
  nodeOf .other [nodeOf .other [nodeOf .other [nodeOf .funcLit [nodeOf .ifStmt []]]]]

/-- The tree of a Go file with two function declarations: one holding an
`if` and a `switch` with two `case` clauses, one holding a `for` loop. -/
def fileTwoFuncs : Node :=
  nodeOf .other
    [ nodeOf .funcDecl
        [ nodeOf .ifStmt []
        , nodeOf .switchStmt [nodeOf .caseClause [], nodeOf .caseClause []] ]
    , nodeOf .funcDecl [nodeOf .forStmt []] ]

/-- A regexp oracle that reports every pattern as matching. -/
def alwaysMatch : String → String → Bool := fun _ _ => true

/-- A commented-out line that still matches the first SQL-injection
pattern textually. -/
def commentedSqlLine : String := "// query := \"SELECT name FROM users WHERE id=%s\""

/-- A query-building line that also contains the placeholder literal
`password="test"` from the false-positive list, so the secret filter
would suppress it. -/
def placeholderSqlLine : String :=
  "password=\"test\"; query := \"SELECT id FROM users WHERE pwd=%s\""

/-! ## Supporting lemmas -/

/-- Applying one summary step at a key adds one exactly when the issue's
severity, respectively type, is that key. -/
theorem bump2_apply (m : String → Nat) (i : Issue) (key : String) :
    (bumpKey (bumpKey m i.severity) i.type) key =
      m key + (if i.severity == key then 1 else 0) +
        (if i.type == key then 1 else 0) := by
  simp only [bumpKey, beq_iff_eq]
  by_cases h1 : key = i.severity
  · by_cases h2 : key = i.type
    · rw [if_pos h2, if_pos h1, if_pos h1.symm, if_pos h2.symm]
    · rw [if_pos h1, if_neg h2, if_pos h1.symm, if_neg (fun h => h2 h.symm)]
  · by_cases h2 : key = i.type
    · rw [if_pos h2, if_neg h1, if_neg (fun h => h1 h.symm), if_pos h2.symm]
      try omega
    · rw [if_neg h2, if_neg h1, if_neg (fun h => h1 h.symm), if_neg (fun h => h2 h.symm)]
      try omega

/-- The summary fold counts severity matches plus type matches. -/
theorem summary_foldl (is : List Issue) (m : String → Nat) (key : String) :
    (is.foldl (fun m i => bumpKey (bumpKey m i.severity) i.type) m) key =
      m key + is.countP (fun i => i.severity == key) +
        is.countP (fun i => i.type == key) := by
  induction is generalizing m with
  | nil => simp
  | cons i is ih =>
    rw [List.foldl_cons, ih, List.countP_cons, List.countP_cons, bump2_apply]
    omega

/-- A summary entry is the count of issues whose severity is the key plus
the count of issues whose type is the key. -/
theorem getIssuesSummary_count (issues : List Issue) (key : String) :
    getIssuesSummary issues key =
      issues.countP (fun i => i.severity == key) +
        issues.countP (fun i => i.type == key) := by
  have h := summary_foldl issues (fun _ => 0) key
  simpa [getIssuesSummary] using h

/-- No severity label is also a kind label. -/
theorem sev_kind_ne {s k : String} (hs : s ∈ severityLabels) (hk : k ∈ kindLabels) :
    s ≠ k := by
  fin_cases hs <;> fin_cases hk <;> decide

/-- For well-labelled issues, no type matches a severity label. -/
theorem countP_type_sev_zero {issues : List Issue}
    (hwf : ∀ i ∈ issues, validLabels i) {s : String} (hs : s ∈ severityLabels) :
    issues.countP (fun i => i.type == s) = 0 := by
  rw [List.countP_eq_zero]
  intro i hi
  simp only [beq_iff_eq]
  exact fun h => sev_kind_ne hs (hwf i hi).2 (h ▸ rfl)

/-- For well-labelled issues, no severity matches a kind label. -/
theorem countP_sev_kind_zero {issues : List Issue}
    (hwf : ∀ i ∈ issues, validLabels i) {k : String} (hk : k ∈ kindLabels) :
    issues.countP (fun i => i.severity == k) = 0 := by
  rw [List.countP_eq_zero]
  intro i hi
  simp only [beq_iff_eq]
  exact fun h => sev_kind_ne (hwf i hi).1 hk h

/-- The source's two-sided clamp (floor at 0, then cap at 100) is the
usual clamp into the interval. -/
theorem clamp_eq (x : ℚ) :
    (if 100 < (if x < 0 then (0:ℚ) else x) then (100:ℚ)
     else if x < 0 then 0 else x) =
      max 0 (min 100 x) := by
  rw [max_def, min_def]
  split_ifs <;> linarith

/-- Read-failure issues carry declared labels. -/
theorem readErrorIssue_valid (p m : String) : validLabels (readErrorIssue p m) := by
  constructor <;> simp [readErrorIssue, validLabels, severityLabels, kindLabels]

/-- Parse-failure issues carry declared labels. -/
theorem parseErrorIssue_valid (p m : String) : validLabels (parseErrorIssue p m) := by
  constructor <;> simp [parseErrorIssue, validLabels, severityLabels, kindLabels]

/-- Processing one file preserves well-labelledness of the issue list,
provided the rule engine only emits well-labelled issues. -/
theorem analyzeFile_preserves_wf (engine : RuleEngine)
    (hE : ∀ p t c, ∀ i ∈ engine p t c, validLabels i)
    (st : AnalyzerState) (f : FileInput)
    (hst : ∀ i ∈ st.issues, validLabels i) :
    ∀ i ∈ (analyzeFile engine st f).issues, validLabels i := by
  obtain ⟨path, c⟩ := f
  cases c with
  | readFailure msg =>
    intro i hi
    rcases List.mem_append.mp hi with h | h
    · exact hst i h
    · rw [List.mem_singleton.mp h]
      exact readErrorIssue_valid path msg
  | parseFailure content msg =>
    intro i hi
    rcases List.mem_append.mp hi with h | h
    · exact hst i h
    · rw [List.mem_singleton.mp h]
      exact parseErrorIssue_valid path msg
  | parsed content tree =>
    intro i hi
    rcases List.mem_append.mp hi with h | h
    · exact hst i h
    · exact hE path tree content i h

/-- The whole scan preserves well-labelledness. -/
theorem foldl_preserves_wf (engine : RuleEngine)
    (hE : ∀ p t c, ∀ i ∈ engine p t c, validLabels i)
    (files : List FileInput) (st : AnalyzerState)
    (hst : ∀ i ∈ st.issues, validLabels i) :
    ∀ i ∈ (files.foldl (analyzeFile engine) st).issues, validLabels i := by
  induction files generalizing st with
  | nil => exact hst
  | cons f fs ih => exact ih _ (analyzeFile_preserves_wf engine hE st f hst)

/-- Every processed file, failed or not, increments the file counter by
exactly one. -/
theorem foldl_filesCount (engine : RuleEngine) (files : List FileInput)
    (st : AnalyzerState) :
    (files.foldl (analyzeFile engine) st).filesCount =
      st.filesCount + files.length := by
  induction files generalizing st with
  | nil => simp
  | cons f fs ih =>
    rw [List.foldl_cons, ih]
    have h1 : (analyzeFile engine st f).filesCount = st.filesCount + 1 := by
      obtain ⟨path, c⟩ := f
      cases c <;> rfl
    rw [h1, List.length_cons]
    omega

mutual
/-- Counting branching-or-funcDecl nodes splits into branching nodes plus
collected function declarations. -/
theorem inspectCount_branch_funcDecl (n : Node) :
    inspectCount (fun k => k.isBranching || k = NodeKind.funcDecl) n =
      inspectCount NodeKind.isBranching n + (collectFuncDecls n).length := by
  cases n with
  | mk k cs =>
    simp only [inspectCount, collectFuncDecls, List.length_append]
    rw [inspectCountList_branch_funcDecl cs]
    by_cases hf : k = NodeKind.funcDecl
    · subst hf
      simp [NodeKind.isBranching]
      omega
    · simp [hf]
      omega
/-- List version of `inspectCount_branch_funcDecl`. -/
theorem inspectCountList_branch_funcDecl (ns : NodeList) :
    inspectCountList (fun k => k.isBranching || k = NodeKind.funcDecl) ns =
      inspectCountList NodeKind.isBranching ns + (collectFuncDeclsList ns).length := by
  cases ns with
  | nil => rfl
  | cons n ns =>
    simp only [inspectCountList, collectFuncDeclsList, List.length_append]
    rw [inspectCount_branch_funcDecl n, inspectCountList_branch_funcDecl ns]
    omega
end

mutual
/-- A tree containing no `funcDecl` node collects none. -/
theorem collectFuncDecls_eq_nil (n : Node)
    (h : inspectCount (fun k => k = NodeKind.funcDecl) n = 0) :
    collectFuncDecls n = [] := by
  cases n with
  | mk k cs =>
    simp only [inspectCount] at h
    simp only [collectFuncDecls]
    by_cases hf : k = NodeKind.funcDecl
    · simp [hf] at h
    · have h0 : inspectCountList (fun k => k = NodeKind.funcDecl) cs = 0 := by
        simpa [hf] using h
      rw [if_neg hf, List.nil_append]
      exact collectFuncDeclsList_eq_nil cs h0
/-- List version of `collectFuncDecls_eq_nil`. -/
theorem collectFuncDeclsList_eq_nil (ns : NodeList)
    (h : inspectCountList (fun k => k = NodeKind.funcDecl) ns = 0) :
    collectFuncDeclsList ns = [] := by
  cases ns with
  | nil => rfl
  | cons n ns =>
    simp only [inspectCountList] at h
    simp only [collectFuncDeclsList]
    rw [collectFuncDecls_eq_nil n (by omega), collectFuncDeclsList_eq_nil ns (by omega)]
    rfl
end

mutual
/-- When branching nodes occur only under non-nested function
declarations, the file-wide branching count is the sum of the per-function
branching counts. -/
theorem branch_count_partition (n : Node) (h : branchesUnderFuncDecls n = true) :
    inspectCount NodeKind.isBranching n =
      ((collectFuncDecls n).map (inspectCount NodeKind.isBranching)).sum := by
  cases n with
  | mk k cs =>
    by_cases hf : k = NodeKind.funcDecl
    · simp only [branchesUnderFuncDecls] at h
      rw [if_pos hf] at h
      have h0 : inspectCountList (fun x => x = NodeKind.funcDecl) cs = 0 := by
        simpa using h
      rw [show collectFuncDecls (Node.mk k cs) =
            (if k = NodeKind.funcDecl then [Node.mk k cs] else []) ++
              collectFuncDeclsList cs from rfl]
      rw [collectFuncDeclsList_eq_nil cs h0, if_pos hf]
      simp
    · simp only [branchesUnderFuncDecls] at h
      rw [if_neg hf, Bool.and_eq_true, Bool.not_eq_true'] at h
      rw [show collectFuncDecls (Node.mk k cs) =
            (if k = NodeKind.funcDecl then [Node.mk k cs] else []) ++
              collectFuncDeclsList cs from rfl]
      rw [if_neg hf, List.nil_append]
      rw [show inspectCount NodeKind.isBranching (Node.mk k cs) =
            (if NodeKind.isBranching k then 1 else 0) +
              inspectCountList NodeKind.isBranching cs from rfl]
      rw [h.1, if_neg (by simp), Nat.zero_add]
      exact branch_count_partition_list cs h.2
/-- List version of `branch_count_partition`. -/
theorem branch_count_partition_list (ns : NodeList)
    (h : branchesUnderFuncDeclsList ns = true) :
    inspectCountList NodeKind.isBranching ns =
      ((collectFuncDeclsList ns).map (inspectCount NodeKind.isBranching)).sum := by
  cases ns with
  | nil => rfl
  | cons n ns =>
    simp only [branchesUnderFuncDeclsList, Bool.and_eq_true] at h
    simp only [inspectCountList, collectFuncDeclsList, List.map_append, List.sum_append]
    rw [branch_count_partition n h.1, branch_count_partition_list ns h.2]
end

/-- Summing per-function complexities separates the `1` bases from the
branching counts. -/
theorem sum_map_calculateComplexity (l : List Node) :
    (l.map calculateComplexity).sum =
      l.length + (l.map (inspectCount NodeKind.isBranching)).sum := by
  induction l with
  | nil => rfl
  | cons n ns ih =>
    simp only [List.map_cons, List.sum_cons, List.length_cons, calculateComplexity, ih]
    omega

/-- The indentation loop counts leading tabs one-for-one when the line
goes on with a non-whitespace character. -/
theorem indentLoop_tabs (n : Nat) (cs : List Char) (lvl : Nat) :
    indentLoop (List.replicate n '\t' ++ 'i' :: cs) lvl = lvl + n := by
  induction n generalizing lvl with
  | zero => simp [indentLoop]
  | succ n ih =>
    rw [List.replicate_succ, List.cons_append]
    rw [show indentLoop ('\t' :: (List.replicate n '\t' ++ 'i' :: cs)) lvl =
          indentLoop (List.replicate n '\t' ++ 'i' :: cs) (lvl + 1) from by
        simp [indentLoop]]
    rw [ih]
    omega

/-! ## The claims -/

/-- C1: for every project analysis over well-labelled issues, the numeric
score equals `clamp(100 − 10·high − 5·medium − 1·low − penalty, 0, 100)`
with `penalty = max(0, avg − 10)·2` and `avg = cyclomatic complexity /
files analyzed`, and the score is 0 when no files were analyzed. -/
theorem C1_score_formula (st : AnalyzerState)
    (hwf : ∀ i ∈ st.issues, validLabels i) :
    calculateScore st =
      if st.filesCount = 0 then 0
      else
        max 0 (min 100
          (100 - 10 * (st.issues.countP (fun i => i.severity == "high") : ℚ)
            - 5 * (st.issues.countP (fun i => i.severity == "medium") : ℚ)
            - 1 * (st.issues.countP (fun i => i.severity == "low") : ℚ)
            - max 0 ((st.metrics.cyclomaticComplexity : ℚ) / (st.filesCount : ℚ) - 10) * 2)) := by
  unfold calculateScore
  by_cases h0 : st.filesCount = 0
  · simp [h0]
  · rw [if_neg h0, if_neg h0]
    have hhigh := getIssuesSummary_count st.issues "high"
    have hmed := getIssuesSummary_count st.issues "medium"
    have hlow := getIssuesSummary_count st.issues "low"
    rw [countP_type_sev_zero hwf (by decide)] at hhigh hmed hlow
    simp only [hhigh, hmed, hlow, Nat.add_zero, Nat.pos_of_ne_zero h0, if_true]
    set avg : ℚ := (st.metrics.cyclomaticComplexity : ℚ) / (st.filesCount : ℚ) with havg
    by_cases hc : 10 < avg
    · rw [if_pos hc, clamp_eq]
      have hmax : (0 : ℚ) ⊔ (avg - 10) = avg - 10 := max_eq_right (by linarith)
      rw [hmax]
      push_cast
      ring_nf
    · rw [if_neg hc, clamp_eq]
      have hmax : (0 : ℚ) ⊔ (avg - 10) = 0 := max_eq_left (by linarith [not_lt.mp hc])
      rw [hmax]
      push_cast
      ring_nf

/-- Witness for C1 at the spec's Scenario C state. -/
theorem C1_score_formula_witness :
    (∀ i ∈ stScenarioC.issues, validLabels i) ∧
    calculateScore stScenarioC =
      (if stScenarioC.filesCount = 0 then 0
       else
        max 0 (min 100
          (100 - 10 * (stScenarioC.issues.countP (fun i => i.severity == "high") : ℚ)
            - 5 * (stScenarioC.issues.countP (fun i => i.severity == "medium") : ℚ)
            - 1 * (stScenarioC.issues.countP (fun i => i.severity == "low") : ℚ)
            - max 0 ((stScenarioC.metrics.cyclomaticComplexity : ℚ) /
                (stScenarioC.filesCount : ℚ) - 10) * 2))) :=
  ⟨by decide, C1_score_formula stScenarioC (by decide)⟩

/-- C2: in every report of a project analysis whose rule engine emits
well-labelled issues, the summary entry of each severity label equals the
number of issues with that severity, and the summary entry of each kind
label equals the number of issues with that kind. -/
theorem C2_summary_is_derived_view (engine : RuleEngine) (files : List FileInput)
    (hE : ∀ p t c, ∀ i ∈ engine p t c, validLabels i) :
    (∀ s ∈ severityLabels,
        (analyzeProjectFiles engine files).issuesSummary s =
          (analyzeProjectFiles engine files).issues.countP (fun i => i.severity == s)) ∧
    (∀ k ∈ kindLabels,
        (analyzeProjectFiles engine files).issuesSummary k =
          (analyzeProjectFiles engine files).issues.countP (fun i => i.type == k)) := by
  have hwf : ∀ i ∈ (files.foldl (analyzeFile engine) initState).issues, validLabels i :=
    foldl_preserves_wf engine hE files initState (by simp [initState])
  constructor
  · intro s hs
    show getIssuesSummary (files.foldl (analyzeFile engine) initState).issues s = _
    rw [getIssuesSummary_count, countP_type_sev_zero hwf hs, Nat.add_zero]
    rfl
  · intro k hk
    show getIssuesSummary (files.foldl (analyzeFile engine) initState).issues k = _
    rw [getIssuesSummary_count, countP_sev_kind_zero hwf hk, Nat.zero_add]
    rfl

/-- Witness for C2 on a one-file project whose file cannot be read. -/
theorem C2_summary_is_derived_view_witness :
    (∀ p t c, ∀ i ∈ nullEngine p t c, validLabels i) ∧
    ((∀ s ∈ severityLabels,
        (analyzeProjectFiles nullEngine oneBadFile).issuesSummary s =
          (analyzeProjectFiles nullEngine oneBadFile).issues.countP
            (fun i => i.severity == s)) ∧
      (∀ k ∈ kindLabels,
        (analyzeProjectFiles nullEngine oneBadFile).issuesSummary k =
          (analyzeProjectFiles nullEngine oneBadFile).issues.countP
            (fun i => i.type == k))) :=
  ⟨fun _ _ _ _ hi => absurd hi (List.not_mem_nil _),
    C2_summary_is_derived_view nullEngine oneBadFile
      (fun _ _ _ _ hi => absurd hi (List.not_mem_nil _))⟩

/-- C3: an unreadable file increments the file counter, appends exactly
one high-severity `error`-kind issue with rule `read_error`, and leaves
the metrics untouched; an unparseable file does the same with rule
`parse_error`; and the project analysis always produces a report covering
every candidate file, failing for none of them. -/
theorem C3_ingestion_errors (engine : RuleEngine) (st : AnalyzerState)
    (p msg content : String) :
    analyzeFile engine st ⟨p, .readFailure msg⟩ =
      { st with filesCount := st.filesCount + 1
                issues := st.issues ++ [readErrorIssue p msg] } ∧
    analyzeFile engine st ⟨p, .parseFailure content msg⟩ =
      { st with filesCount := st.filesCount + 1
                issues := st.issues ++ [parseErrorIssue p msg] } ∧
    (readErrorIssue p msg).type = "error" ∧ (readErrorIssue p msg).severity = "high" ∧
    (readErrorIssue p msg).rule = "read_error" ∧
    (parseErrorIssue p msg).type = "error" ∧ (parseErrorIssue p msg).severity = "high" ∧
    (parseErrorIssue p msg).rule = "parse_error" ∧
    (analyzeFile engine st ⟨p, .readFailure msg⟩).metrics = st.metrics ∧
    (analyzeFile engine st ⟨p, .parseFailure content msg⟩).metrics = st.metrics ∧
    (∀ files : List FileInput,
        (analyzeProjectFiles engine files).filesAnalyzed = files.length) := by
  refine ⟨rfl, rfl, rfl, rfl, rfl, rfl, rfl, rfl, rfl, rfl, ?_⟩
  intro files
  show (files.foldl (analyzeFile engine) initState).filesCount = files.length
  rw [foldl_filesCount]
  simp [initState]

/-- C4: at a state with one `missing_documentation` issue and no
vulnerabilities, the internal analyzer's maintainability index is 100,
while the claimed formula (and main.go's rule-id-based variant of the
same computation) gives 98: the internal `summary["missing_documentation"]`
lookup hits a map keyed only by severity and type. -/
theorem C4_maintainability_ignores_missing_docs :
    (calculateQualityTrends stMissingDoc).maintainabilityIndex = 100 ∧
    getIssueCountByType stMissingDoc.issues "vulnerability" = 0 ∧
    getIssueCountByRule stMissingDoc.issues "missing_documentation" = 1 ∧
    max (0:ℚ) (100 - 5 * (getIssueCountByType stMissingDoc.issues "vulnerability" : ℚ)
      - 2 * (getIssueCountByRule stMissingDoc.issues "missing_documentation" : ℚ)) = 98 ∧
    (mainCalculateQualityTrends stMissingDoc).maintainabilityIndex = 98 := by
  refine ⟨?_, by decide, by decide, ?_, ?_⟩
  · simp [calculateQualityTrends, getIssuesSummary, bumpKey, stMissingDoc, emptyMetrics,
      max_def] <;> norm_num
  · simp [getIssueCountByType, getIssueCountByRule, stMissingDoc, max_def] <;> norm_num
  · simp [mainCalculateQualityTrends, getIssueCountByType, getIssueCountByRule,
      stMissingDoc, emptyMetrics, max_def] <;> norm_num

/-- C5 counterexample: for an `if` statement indented by 20 spaces the
claim's depth is 5, so the claim demands a `deep_nesting` issue, but the
source's loop computes level 2 and `checkDeepNesting` emits nothing. -/
theorem C5_claim_counterexample :
    claimIndentDepth deepLine = 5 ∧
    calculateIndentLevel deepLine = 2 ∧
    checkDeepNesting "deep.go" 1 1 deepLine = [] := by
  refine ⟨by decide, by decide, by decide⟩

/-- C5 (amended): `checkDeepNesting` emits exactly one medium-severity
`deep_nesting` code smell precisely when the statement's line exists and
the source's running indentation counter - incremented per leading tab or
space and replaced by its quarter whenever a space makes it divisible by
4 - exceeds 4; on lines indented by tabs alone that counter is the tab
count. -/
theorem C5_deep_nesting_amended (file : String) (stmtLine stmtCol : Nat)
    (content : String) :
    (∀ i ∈ checkDeepNesting file stmtLine stmtCol content,
        i.rule = "deep_nesting" ∧ i.severity = "medium" ∧ i.type = "code_smell" ∧
          i.line = stmtLine) ∧
    (checkDeepNesting file stmtLine stmtCol content ≠ [] ↔
      stmtLine - 1 < (splitLines content).length ∧
        4 < calculateIndentLevel ((splitLines content).getD (stmtLine - 1) "")) ∧
    (∀ (n : Nat) (cs : List Char),
        calculateIndentLevel (String.mk (List.replicate n '\t' ++ 'i' :: cs)) = n) := by
  refine ⟨?_, ?_, ?_⟩
  · intro i hi
    simp only [checkDeepNesting] at hi
    by_cases h1 : stmtLine - 1 < (splitLines content).length
    · rw [if_pos h1] at hi
      by_cases h2 : 4 < calculateIndentLevel ((splitLines content).getD (stmtLine - 1) "")
      · rw [if_pos h2] at hi
        rw [List.mem_singleton.mp hi]
        exact ⟨rfl, rfl, rfl, rfl⟩
      · rw [if_neg h2] at hi
        cases hi
    · rw [if_neg h1] at hi
      cases hi
  · simp only [checkDeepNesting]
    constructor
    · intro hne
      by_cases h1 : stmtLine - 1 < (splitLines content).length
      · rw [if_pos h1] at hne
        by_cases h2 : 4 < calculateIndentLevel ((splitLines content).getD (stmtLine - 1) "")
        · exact ⟨h1, h2⟩
        · rw [if_neg h2] at hne
          exact absurd rfl hne
      · rw [if_neg h1] at hne
        exact absurd rfl hne
    · rintro ⟨h1, h2⟩
      rw [if_pos h1, if_pos h2]
      simp
  · intro n cs
    show indentLoop (List.replicate n '\t' ++ 'i' :: cs) 0 = n
    rw [indentLoop_tabs]
    omega

/-- Witness for the amended C5 at a concrete single-line file. -/
theorem C5_deep_nesting_amended_witness :
    checkDeepNesting "deep.go" 1 1 deepLine ≠ [] ↔
      1 - 1 < (splitLines deepLine).length ∧
        4 < calculateIndentLevel ((splitLines deepLine).getD (1 - 1) "") :=
  (C5_deep_nesting_amended "deep.go" 1 1 deepLine).2.1

/-- C6 counterexample: a parsed file whose only branching node sits in a
top-level function-literal initializer has file complexity 1 but no
function declarations, so the sum of per-function complexities is 0. -/
theorem C6_sum_counterexample :
    calculateFileComplexity fileWithTopLevelFuncLit = 1 ∧
    collectFuncDecls fileWithTopLevelFuncLit = [] ∧
    calculateFileComplexity fileWithTopLevelFuncLit ≠
      ((collectFuncDecls fileWithTopLevelFuncLit).map calculateComplexity).sum := by
  refine ⟨by decide, by decide, by decide⟩

/-- C6 (amended): for every parsed file in which branching nodes and case
clauses occur only inside non-nested function declarations - every
declaration-style Go file - the per-file complexity the analyzer adds to
the metrics equals the sum over the file's function declarations of the
ComplexityRule's per-function complexity. -/
theorem C6_file_complexity_amended (file : Node)
    (h : branchesUnderFuncDecls file = true) :
    calculateFileComplexity file =
      ((collectFuncDecls file).map calculateComplexity).sum := by
  rw [calculateFileComplexity, inspectCount_branch_funcDecl,
    branch_count_partition file h, sum_map_calculateComplexity]
  omega

/-- Witness for the amended C6 on a two-function file. -/
theorem C6_file_complexity_amended_witness :
    branchesUnderFuncDecls fileTwoFuncs = true ∧
    calculateFileComplexity fileTwoFuncs =
      ((collectFuncDecls fileTwoFuncs).map calculateComplexity).sum :=
  ⟨by decide, C6_file_complexity_amended fileTwoFuncs (by decide)⟩

/-- C7: on scores in `[0, 100]` the letter grade is A exactly at 90 and
above, B on `[80, 90)`, C on `[70, 80)`, D on `[60, 70)`, and F below 60,
each band inclusive at its lower bound. -/
theorem C7_grade_bands (s : ℚ) (h0 : 0 ≤ s) (h1 : s ≤ 100) :
    (calculateGrade s = "A" ↔ 90 ≤ s) ∧
    (calculateGrade s = "B" ↔ 80 ≤ s ∧ s < 90) ∧
    (calculateGrade s = "C" ↔ 70 ≤ s ∧ s < 80) ∧
    (calculateGrade s = "D" ↔ 60 ≤ s ∧ s < 70) ∧
    (calculateGrade s = "F" ↔ s < 60) := by
  have gA : calculateGrade s = "A" ↔ 90 ≤ s := by
    unfold calculateGrade
    split_ifs with hA hB hC hD <;> constructor <;> intro hh <;>
      first
        | rfl
        | exact hA
        | exact absurd hh (by decide)
        | (exfalso; linarith)
  have gB : calculateGrade s = "B" ↔ 80 ≤ s ∧ s < 90 := by
    unfold calculateGrade
    split_ifs with hA hB hC hD <;> constructor <;> intro hh <;>
      first
        | rfl
        | exact ⟨hB, by linarith⟩
        | exact absurd hh (by decide)
        | (rcases hh with ⟨u, v⟩; exfalso; linarith)
  have gC : calculateGrade s = "C" ↔ 70 ≤ s ∧ s < 80 := by
    unfold calculateGrade
    split_ifs with hA hB hC hD <;> constructor <;> intro hh <;>
      first
        | rfl
        | exact ⟨hC, by linarith⟩
        | exact absurd hh (by decide)
        | (obtain ⟨u, v⟩ := hh; exfalso; linarith)
  have gD : calculateGrade s = "D" ↔ 60 ≤ s ∧ s < 70 := by
    unfold calculateGrade
    split_ifs with hA hB hC hD <;> constructor <;> intro hh <;>
      first
        | rfl
        | exact ⟨hD, by linarith⟩
        | exact absurd hh (by decide)
        | (exact absurd hh.1 (by linarith))
  have gF : calculateGrade s = "F" ↔ s < 60 := by
    unfold calculateGrade
    split_ifs with hA hB hC hD <;> constructor <;> intro hh <;>
      first
        | rfl
        | linarith
        | exact absurd hh (by decide)
        | (exfalso; linarith)
  exact ⟨gA, gB, gC, gD, gF⟩

/-- Witness for C7 at score 85. -/
theorem C7_grade_bands_witness :
    (0:ℚ) ≤ 85 ∧ (85:ℚ) ≤ 100 ∧
      (calculateGrade 85 = "B" ↔ 80 ≤ (85:ℚ) ∧ (85:ℚ) < 90) :=
  ⟨by norm_num, by norm_num, (C7_grade_bands 85 (by norm_num) (by norm_num)).2.1⟩

/-- C8: a project whose walk yields no processed file reports zero files
analyzed, score 0, grade F, and the all-zero trends value. -/
theorem C8_empty_project (engine : RuleEngine) :
    (analyzeProjectFiles engine []).filesAnalyzed = 0 ∧
    (analyzeProjectFiles engine []).score = 0 ∧
    (analyzeProjectFiles engine []).grade = "F" ∧
    (analyzeProjectFiles engine []).trends = emptyTrends := by
  refine ⟨rfl, ?_, ?_, ?_⟩
  · show calculateScore initState = 0
    simp [calculateScore, initState]
  · show calculateGrade (calculateScore initState) = "F"
    have h : calculateScore initState = 0 := by simp [calculateScore, initState]
    rw [h]
    norm_num [calculateGrade]
  · show calculateQualityTrends initState = emptyTrends
    simp [calculateQualityTrends, initState]

/-- C9: the false-positive suppression gates only the hardcoded-secret
scan: a line containing `//` or `/*` anywhere yields no `hardcoded_secret`
issue regardless of what the regexp oracle reports, while any line the
oracle matches against an SQL pattern yields a high-severity
`sql_injection` vulnerability, comments and placeholders included. -/
theorem C9_suppression_scope (matchString : String → String → Bool)
    (file : String) (ln : Nat) (line : String) :
    ((strContains line "//" = true ∨ strContains line "/*" = true) →
      checkHardcodedSecrets matchString file ln line = []) ∧
    (∀ p ∈ sqlPatterns, matchString p line = true →
      sqlInjectionIssue file ln ∈ checkSQLInjection matchString file ln line ∧
      (sqlInjectionIssue file ln).rule = "sql_injection" ∧
      (sqlInjectionIssue file ln).type = "vulnerability" ∧
      (sqlInjectionIssue file ln).severity = "high") := by
  constructor
  · intro hc
    have hfp : isFalsePositive line = true := by
      unfold isFalsePositive
      rcases hc with h | h <;> simp [h]
    simp [checkHardcodedSecrets, secretPatterns, hfp]
  · intro p hp hm
    refine ⟨?_, rfl, rfl, rfl⟩
    unfold checkSQLInjection
    exact List.mem_flatMap.mpr ⟨p, hp, by simp [hm]⟩

/-- Witness for C9: the secret half at a commented-out query line, the
SQL half at a line carrying the placeholder literal `password="test"`
(which the false-positive filter would suppress), both with an
all-matching oracle. -/
theorem C9_suppression_scope_witness :
    (strContains commentedSqlLine "//" = true ∨
      strContains commentedSqlLine "/*" = true) ∧
    checkHardcodedSecrets alwaysMatch "db.go" 7 commentedSqlLine = [] ∧
    "(?i)query\\s*[:=]\\s*[\"\x27].*%[sv].*[\"\x27]" ∈ sqlPatterns ∧
    alwaysMatch "(?i)query\\s*[:=]\\s*[\"\x27].*%[sv].*[\"\x27]" placeholderSqlLine = true ∧
    isFalsePositive placeholderSqlLine = true ∧
    (sqlInjectionIssue "db.go" 9 ∈
        checkSQLInjection alwaysMatch "db.go" 9 placeholderSqlLine ∧
      (sqlInjectionIssue "db.go" 9).rule = "sql_injection" ∧
      (sqlInjectionIssue "db.go" 9).type = "vulnerability" ∧
      (sqlInjectionIssue "db.go" 9).severity = "high") :=
  ⟨Or.inl (by decide),
    (C9_suppression_scope alwaysMatch "db.go" 7 commentedSqlLine).1 (Or.inl (by decide)),
    by decide, rfl, by decide,
    (C9_suppression_scope alwaysMatch "db.go" 9 placeholderSqlLine).2
      "(?i)query\\s*[:=]\\s*[\"\x27].*%[sv].*[\"\x27]" (by decide) rfl⟩

/-- C10: the standalone main.go analyzer's report always carries the
placeholder score 100 and grade A, whatever state the scan accumulated;
at a state with ten high-severity issues its own `calculateScore` would
return 0 with grade F, showing that the scoring functions play no part in
the report. -/
theorem C10_main_report_placeholder :
    (∀ st : AnalyzerState, (mainAnalyzeProjectReport st).score = 100 ∧
        (mainAnalyzeProjectReport st).grade = "A") ∧
    (mainAnalyzeProjectReport stManyHigh).score = 100 ∧
    (mainAnalyzeProjectReport stManyHigh).grade = "A" ∧
    calculateScore stManyHigh = 0 ∧
    calculateGrade (calculateScore stManyHigh) = "F" := by
  have h : calculateScore stManyHigh = 0 := by
    simp [calculateScore, getIssuesSummary, bumpKey, stManyHigh, emptyMetrics,
      List.replicate] <;> norm_num
  refine ⟨fun st => ⟨rfl, rfl⟩, rfl, rfl, h, ?_⟩
  rw [h]
  simp [calculateGrade] <;> norm_num

end Nada
